import Mathlib

/-!
Shallow embedding of `glue_astronomy/translators/spectrum1d.py`:
the `PaddedSpectrumWCS` adapter and the `SpecutilsHandler` translator
(`to_data` / `to_object`), together with the small slices of external
collaborators (numpy arrays, python dicts, glue `Data`) that the
translator's behaviour depends on.

Numeric values are modelled by `ℚ` (the code performs no floating-point
rounding that any verified property depends on; `np.isclose` is modelled
with its documented formula and default tolerances over `ℚ`).
-/

/-- A metadata value stored in a python dict (string or int are the only
kinds the translator itself ever writes or reads). -/
inductive MetaVal
  | str (s : String)
  | nat (n : Nat)
deriving DecidableEq, Repr

/-- A python dict with string keys, modelled as an association list whose
keys are unique in well-formed states; lookup returns the first match. -/
abbrev PyDict := List (String × MetaVal)

/-- `d[k]` (as `Option`). -/
def dictGet (d : PyDict) (k : String) : Option MetaVal :=
  (d.find? (fun p => p.1 = k)).map (fun p => p.2)

/-- `d[k] = v`: replace the value at an existing key, else append. -/
def dictInsert (d : PyDict) (k : String) (v : MetaVal) : PyDict :=
  if d.any (fun p => p.1 = k) then
    d.map (fun p => if p.1 = k then (k, v) else p)
  else
    d ++ [(k, v)]

/-- `d.update(u)`: python dict update, entries of `u` win on duplicate keys. -/
def dictUpdate (d u : PyDict) : PyDict :=
  u.foldl (fun acc p => dictInsert acc p.1 p.2) d

/-- Lookup of an integer-valued metadata entry (e.g. `spectral_axis_index`). -/
def metaNat (d : PyDict) (k : String) : Option Nat :=
  match dictGet d k with
  | some (.nat n) => some n
  | _ => none

/-- A numpy ndarray: a shape together with the row-major flat data. -/
structure NDArray (α : Type) where
  shape : List Nat
  data : List α
deriving Repr

/-- `a.ndim`. -/
def NDArray.ndim (a : NDArray α) : Nat := a.shape.length

/-- `a.ravel()`: the row-major flat data. -/
def NDArray.ravel (a : NDArray α) : List α := a.data

/-- `xs.reshape(sh)`. -/
def reshape (xs : List α) (sh : List Nat) : NDArray α := ⟨sh, xs⟩

/-- Row-major flat index of a multi-index. -/
def flatIndex : List Nat → List Nat → Nat
  | _ :: sh, i :: idx => i * sh.prod + flatIndex sh idx
  | _, _ => 0

/-- Element at a multi-index (default-padded out of range). -/
def NDArray.get [Inhabited α] (a : NDArray α) (idx : List Nat) : α :=
  a.data.getD (flatIndex a.shape idx) default

/-- Elementwise map. -/
def NDArray.map (a : NDArray α) (f : α → β) : NDArray β := ⟨a.shape, a.data.map f⟩

/-- `~m` on a boolean array. -/
def ndNot (m : NDArray Bool) : NDArray Bool := m.map (fun b => !b)

/-- All multi-indices of a shape, in row-major order. -/
def allIndices : List Nat → List (List Nat)
  | [] => [[]]
  | n :: rest => ((List.range n).map (fun i => (allIndices rest).map (i :: ·))).flatten

/-- `np.all(m, axis=complement-axes)`: reduce a boolean array to 1-D by
requiring truth across every axis except `keepAxis`. -/
def npAllKeep (m : NDArray Bool) (keepAxis : Nat) : NDArray Bool :=
  let n := m.shape.getD keepAxis 0
  ⟨[n], (List.range n).map (fun k =>
    (allIndices m.shape).all (fun idx =>
      if idx.getD keepAxis 0 = k then m.get idx else true))⟩

/-- Absolute value on `ℚ`, written out so it evaluates by reduction. -/
def qabs (x : ℚ) : ℚ := if x < 0 then -x else x

/-- `np.isclose(a, b)` with numpy's documented formula and default
tolerances `rtol = 1e-5`, `atol = 1e-8`, over `ℚ`. -/
def npIsClose (a b : ℚ) : Bool :=
  decide (qabs (a - b) ≤ (1 : ℚ) / 10 ^ 8 + (1 : ℚ) / 10 ^ 5 * qabs b)

/-- The three uncertainty kinds of `UNCERT_REF`. -/
inductive UncertKind
  | std
  | var
  | ivar
deriving DecidableEq, Repr

/-- `uncertainty.uncertainty_type` for each kind. -/
def UncertKind.typeStr : UncertKind → String
  | .std => "std"
  | .var => "var"
  | .ivar => "ivar"

/-- `UNCERT_REF` dict lookup: uncertainty-type string to uncertainty class. -/
def UNCERT_REF (s : String) : Option UncertKind :=
  if s = "std" then some .std
  else if s = "var" then some .var
  else if s = "ivar" then some .ivar
  else none

/-- A 1-D spectral WCS (e.g. a 1-D gwcs): its pixel-to-world and
world-to-pixel transforms act pointwise on flat pixel sequences. -/
structure SpectralWCS1D where
  p2w : ℚ → ℚ
  w2p : ℚ → ℚ

/-- An astropy FITS `WCS`: `naxis` plus the spectral sub-WCS produced by
`.sub([WCSSUB_SPECTRAL])`. -/
structure FitsWCS where
  naxis : Nat
  spectralSub : SpectralWCS1D

/-- A generalized WCS (gwcs `WCS`): its world dimensionality and the map
from a pixel point (in WCS axis order, i.e. reversed array order) to the
spectral world coordinate; `pixel_to_world` on coordinate arrays acts
pointwise with this map on the spectral output. -/
structure GWCSModel where
  ndim : Nat
  spectralWorld : List ℚ → ℚ

/-- The coordinate-system kinds a glue `Data` (or a `Spectrum1D`) can carry
in this translator. `spec1d` is a plain 1-D spectral WCS;
`spectralCoordinates` is the repository's `SpectralCoordinates` class
(a bare spectral-coordinate list); `other` stands for any unrelated
coordinates object, tagged with whether it is a `BaseHighLevelWCS`. -/
inductive Coords
  | spec1d (w : SpectralWCS1D)
  | padded (w : SpectralWCS1D) (flux_ndim : Nat) (spectral_axis_index : Nat)
  | fits (w : FitsWCS)
  | gwcs (g : GWCSModel)
  | spectralCoordinates (sa : List ℚ)
  | other (isHighLevel : Bool)

/-- `coords.world_n_dim`. -/
def Coords.worldNDim : Coords → Nat
  | .spec1d _ => 1
  | .padded _ n _ => n
  | .fits w => w.naxis
  | .gwcs g => g.ndim
  | .spectralCoordinates _ => 1
  | .other _ => 0

/-- Modelled from the spec: `isinstance(coords, BaseHighLevelWCS)`.
Astropy WCS, gwcs and the padded wrapper are high-level WCS objects.
The repository's `SpectralCoordinates` class (module
`glue_astronomy.spectral_coordinates`, not under `src/`) is, per the
spec's branch structure (§4.3 step 3c reaches the bare
spectral-coordinate branch only when the high-level branch was not
taken), a bare spectral-coordinate type and not a high-level WCS. -/
def Coords.isBaseHighLevelWCS : Coords → Bool
  | .spec1d _ => true
  | .padded _ _ _ => true
  | .fits _ => true
  | .gwcs _ => true
  | .spectralCoordinates _ => false
  | .other b => b

/-- `isinstance(coords, PaddedSpectrumWCS)`. -/
def Coords.isPadded : Coords → Bool
  | .padded _ _ _ => true
  | _ => false

/-- `isinstance(coords, WCS)` (astropy FITS WCS). -/
def Coords.isFits : Coords → Bool
  | .fits _ => true
  | _ => false

/-- `isinstance(coords, GWCS)`. -/
def Coords.isGwcs : Coords → Bool
  | .gwcs _ => true
  | _ => false

/-- `isinstance(coords, SpectralCoordinates)`. -/
def Coords.isSpectralCoordinates : Coords → Bool
  | .spectralCoordinates _ => true
  | _ => false

/-- An uncertainty attached to a `Spectrum1D`: kind, values, unit. -/
structure Uncert where
  kind : UncertKind
  values : NDArray ℚ
  unit : String

/-- The slice of a specutils `Spectrum1D` the translator consumes. -/
structure Spectrum1D where
  flux : NDArray ℚ
  unit : String
  uncertainty : Option Uncert
  mask : Option (NDArray Bool)
  wcs : Coords
  spectral_axis_index : Nat
  meta : PyDict

/-- A glue `Data` component: label, values, unit string. Boolean (mask)
components are stored as 0/1 rationals. -/
structure Component where
  label : String
  values : NDArray ℚ
  units : String

/-- The slice of a glue `Data` container the translator consumes: its
coordinates, its user-added (main) components in insertion order, its
metadata dict and its shape. Fixed pixel/world components of glue are not
modelled: their labels are never `flux` or `uncertainty`, which is the
only way the translator looks at them. -/
structure GlueData where
  coords : Coords
  components : List Component
  meta : PyDict
  shape : List Nat

/-- `data.ndim`. -/
def GlueData.ndim (d : GlueData) : Nat := d.shape.length

/-- Extract a 1-D spectral WCS when the coords are one. -/
def Coords.asSpec1d : Coords → Option SpectralWCS1D
  | .spec1d w => some w
  | _ => none

/-- `numpy.bool` to 0/1 rational (how a mask component's values land in a
glue component). -/
def boolToQ (b : Bool) : ℚ := if b then 1 else 0

/-- `SpecutilsHandler.to_data` (lines 159-186): pack a spectrum into a glue
`Data`: pad the WCS when the flux is multi-dimensional but the WCS is 1-D,
attach flux (and uncertainty/mask when present) as components, record the
uncertainty type and the spectral axis index in the metadata, then
`update` the metadata with the spectrum's own meta dict. -/
def to_data (obj : Spectrum1D) : GlueData :=
  let coords :=
    if obj.flux.ndim > 1 ∧ obj.wcs.worldNDim = 1 then
      match obj.wcs.asSpec1d with
      | some w => Coords.padded w obj.flux.ndim obj.spectral_axis_index
      | none => obj.wcs
    else obj.wcs
  let comps := [⟨"flux", obj.flux, obj.unit⟩]
    ++ (match obj.uncertainty with
        | some un => [⟨"uncertainty", un.values, un.unit⟩]
        | none => [])
    ++ (match obj.mask with
        | some m => [⟨"mask", m.map boolToQ, ""⟩]
        | none => [])
  let m1 : PyDict :=
    match obj.uncertainty with
    | some un => dictUpdate [] [("uncertainty_type", .str un.kind.typeStr)]
    | none => []
  let m2 := dictUpdate m1 [("spectral_axis_index", .nat obj.spectral_axis_index)]
  let m3 := dictUpdate m2 obj.meta
  { coords := coords, components := comps, meta := m3, shape := obj.flux.shape }

/-- The 1-D spectral transform applied to a flat pixel sequence:
`spectral_wcs.pixel_to_world_values(flat)` acts pointwise. -/
def spec1dP2WFlat (w : SpectralWCS1D) (xs : List ℚ) : List ℚ := xs.map w.p2w

/-- The 1-D spectral inverse transform applied to a flat world sequence. -/
def spec1dW2PFlat (w : SpectralWCS1D) (xs : List ℚ) : List ℚ := xs.map w.w2p

/-- `PaddedSpectrumWCS.pixel_to_world_values` (lines 70-76): the first
pixel array is ravelled, pushed through the wrapped 1-D spectral system,
and reshaped back to its own shape; all remaining pixel arrays pass
through unchanged. -/
def PaddedSpectrumWCS.pixel_to_world_values (w : SpectralWCS1D)
    (pixel_arrays : List (NDArray ℚ)) : List (NDArray ℚ) :=
  match pixel_arrays with
  | [] => []
  | px :: rest => reshape (spec1dP2WFlat w px.ravel) px.shape :: rest

/-- `PaddedSpectrumWCS.world_to_pixel_values` (lines 78-84): symmetric to
`pixel_to_world_values` on the first world array. -/
def PaddedSpectrumWCS.world_to_pixel_values (w : SpectralWCS1D)
    (world_arrays : List (NDArray ℚ)) : List (NDArray ℚ) :=
  match world_arrays with
  | [] => []
  | wx :: rest => reshape (spec1dW2PFlat w wx.ravel) wx.shape :: rest

/-- `np.identity(n)`. -/
def npIdentity (n : Nat) : List (List ℚ) :=
  (List.range n).map (fun i => (List.range n).map (fun j => if i = j then 1 else 0))

/-- `.astype('bool')` on a 2-D float array: nonzero becomes true. -/
def matAstypeBool (m : List (List ℚ)) : List (List Bool) :=
  m.map (fun row => row.map (fun x => decide (x ≠ 0)))

/-- `PaddedSpectrumWCS.axis_correlation_matrix` (lines 122-124):
`np.identity(flux_ndim).astype('bool')`. -/
def PaddedSpectrumWCS.axis_correlation_matrix (flux_ndim : Nat) : List (List Bool) :=
  matAstypeBool (npIdentity flux_ndim)

/-- Core of `SpecutilsHandler._has_homogenous_spectral_solution`
(lines 143-157), after the spectral-axis index and dimensionality have
been read off the data: build the four pixel corners (per axis, the four
per-corner coordinates; non-spectral axes take their maximum at corners 1
and 3, the spectral axis at corners 2 and 3), reverse into WCS axis
order, evaluate the spectral world coordinate at each corner, and compare
corner 0 with corner 1 and corner 2 with corner 3 by `np.isclose`. -/
def hasHomogenousCore (g : GWCSModel) (shape : List Nat) (specIdx : Nat) : Bool :=
  let corners : List (List ℚ) :=
    ((List.range shape.length).map (fun i =>
      if i = specIdx then
        [0, 0, (shape.getD i 0 : ℚ) - 1, (shape.getD i 0 : ℚ) - 1]
      else
        [0, (shape.getD i 0 : ℚ) - 1, 0, (shape.getD i 0 : ℚ) - 1])).reverse
  let pt : Nat → List ℚ := fun j => corners.map (fun col => col.getD j 0)
  npIsClose (g.spectralWorld (pt 0)) (g.spectralWorld (pt 1)) &&
    npIsClose (g.spectralWorld (pt 2)) (g.spectralWorld (pt 3))

/-- The statistics accepted by `to_object`. -/
inductive Stat
  | minimum
  | maximum
  | mean
  | median
  | sum
  | percentile
deriving DecidableEq, Repr

/-- Reduction of a flat list of samples by a statistic. glue's
`Data.compute_statistic` is an external collaborator (spec §1, out of
scope); this is a straightforward total model of it, no verified claim
depends on the numeric values it produces. -/
def collapseVals (st : Stat) (xs : List ℚ) : ℚ :=
  match st with
  | .sum => xs.sum
  | .mean => xs.sum / (xs.length : ℚ)
  | .minimum => xs.foldl min (xs.headD 0)
  | .maximum => xs.foldl max (xs.headD 0)
  | .median => (xs.mergeSort (fun a b => decide (a ≤ b))).getD (xs.length / 2) 0
  | .percentile => (xs.mergeSort (fun a b => decide (a ≤ b))).getD (xs.length / 2) 0

/-- `data.compute_statistic(statistic, attribute, axis=complement-axes,
subset_state=...)`: collapse an array to 1-D along the spectral axis,
restricted to the subset's elements when a subset state is given
(external collaborator, modelled; see `collapseVals`). -/
def computeStatistic (st : Stat) (a : NDArray ℚ) (keepAxis : Nat)
    (subsetMask : Option (NDArray Bool)) : NDArray ℚ :=
  let n := a.shape.getD keepAxis 0
  ⟨[n], (List.range n).map (fun k =>
    collapseVals st ((allIndices a.shape).filterMap (fun idx =>
      if (idx.getD keepAxis 0 == k) && (match subsetMask with
                                        | some m => m.get idx
                                        | none => true) then
        some (a.get idx)
      else none)))⟩

/-- The python exceptions `to_object` can raise. -/
inductive PyErr
  | keyError (k : String)
  | valueError (msg : String)
  | typeError (msg : String)
deriving DecidableEq, Repr

/-- The error message of line 265. -/
def noAttrMsg : String := "Data object has no attributes."

/-- The error message of lines 276-279. -/
def ambiguousMsg : String :=
  "Data object has more than one attribute, so you will need to specify which one to use as the flux for the spectrum using the attribute= keyword argument."

/-- The error message of lines 248-249. -/
def statWCSMsg : String :=
  "Can only use statistic= if the Data object has a GWCS or FITS WCS"

/-- The error message of lines 256-257. -/
def coordsTypeMsg : String :=
  "data.coords should be an instance of WCS or SpectralCoordinates"

/-- The warning message of lines 243-244. -/
def homogWarnMsg : String :=
  "Spectral solution is not the same at all spatial points, collapsing may give inaccurate results."

/-- The spectral-axis specification `to_object` assembles into `kwargs`:
either a WCS (the coords themselves, an unwrapped padded spectral WCS, or
a FITS spectral sub-WCS) or an explicit spectral-axis array. -/
inductive SpectralSpec
  | wcsDirect (c : Coords)
  | wcsSpec1d (w : SpectralWCS1D)
  | wcsFitsSub (w : SpectralWCS1D)
  | spectralAxis (sa : List ℚ)

/-- The representative pixel path of lines 231-237: all coordinates zero
except the spectral one, which runs over `range(shape[specIdx])`; arrays
reversed into WCS order; the spectral world output read off pointwise. -/
def gwcsSpectralAxisPath (g : GWCSModel) (shape : List Nat) (specIdx : Nat) : List ℚ :=
  (List.range (shape.getD specIdx 0)).map (fun j =>
    g.spectralWorld (((List.range shape.length).map
      (fun i => if i = specIdx then (j : ℚ) else 0)).reverse))

/-- Step 3 of `to_object` (lines 212-257): derive the spectral-axis
specification from the statistic and the coordinate-system kind, raising
for unsupported kinds; returns the warnings emitted along the way.
Inside the statistic branch the spectral-axis index is read from the
metadata before any branching on the coordinate type (line 221); the
homogeneity helper re-reads the same key and therefore sees the same
value. -/
def coordsStep (d : GlueData) (st : Option Stat) :
    Except PyErr (SpectralSpec × List String) :=
  if st = none ∧ d.coords.isBaseHighLevelWCS then
    match d.coords with
    | .padded w _ _ => .ok (.wcsSpec1d w, [])
    | c => .ok (.wcsDirect c, [])
  else if st ≠ none then
    match metaNat d.meta "spectral_axis_index" with
    | none => .error (.keyError "spectral_axis_index")
    | some specIdx =>
      match d.coords with
      | .padded w _ _ => .ok (.wcsSpec1d w, [])
      | .fits w => .ok (.wcsFitsSub w.spectralSub, [])
      | .gwcs g =>
        if hasHomogenousCore g d.shape specIdx then
          .ok (.spectralAxis (gwcsSpectralAxisPath g d.shape specIdx), [])
        else
          .ok (.wcsDirect (.gwcs g), [homogWarnMsg])
      | _ => .error (.valueError statWCSMsg)
  else
    match d.coords with
    | .spectralCoordinates sa => .ok (.spectralAxis sa, [])
    | _ => .error (.typeError coordsTypeMsg)

/-- The `attribute` argument of `to_object`: a component name (string) or
a component identifier object. -/
inductive AttrArg
  | byName (s : String)
  | byComp (label : String)

/-- Attribute resolution (lines 262-279): a string is resolved through
`data.id` (glue raises a key error when the name is unknown); otherwise
the zero-attribute check runs first, then an explicit identifier is kept
as-is, a single component is selected by default, the literal labels
`flux`/`uncertainty` are picked up when present, and anything else is the
ambiguity error. -/
def resolveAttribute (d : GlueData) (attrSel : Option AttrArg) :
    Except PyErr (List String) :=
  match attrSel with
  | some (.byName s) =>
    match d.components.find? (fun c => c.label = s) with
    | some c => .ok [c.label]
    | none => .error (.keyError s)
  | _ =>
    if d.components.length = 0 then .error (.valueError noAttrMsg)
    else
      match attrSel with
      | some (.byComp l) => .ok [l]
      | _ =>
        match d.components with
        | [c] => .ok [c.label]
        | _ =>
          if d.components.any (fun c => c.label = "flux" ∨ c.label = "uncertainty") then
            .ok (["flux", "uncertainty"].filter
              (fun s => d.components.any (fun c => c.label = s)))
          else
            .error (.valueError ambiguousMsg)

/-- The `data_kwargs` dict that `parse_attributes` accumulates. -/
structure DataKwargs where
  flux : Option (NDArray ℚ × String) := none
  uncertainty : Option (UncertKind × NDArray ℚ × String) := none
  mask : Option (NDArray Bool) := none

/-- One iteration of `parse_attributes` (lines 281-323): fetch the
component, invert the subset mask when a subset is given, collapse values
(by the statistic) and mask (by `np.all` over the non-spectral axes) when
multi-dimensional with a statistic, relabel any non-`uncertainty`
attribute as flux, and wrap uncertainty values in the kind recorded under
`uncertainty_type` (default `std`, unknown kinds are a dict key error). -/
def parseOne (d : GlueData) (subsetMask : Option (NDArray Bool)) (st : Option Stat)
    (dk : DataKwargs) (l : String) : Except PyErr DataKwargs := do
  let comp ← match d.components.find? (fun c => c.label = l) with
    | some c => Except.ok c
    | none => Except.error (.keyError l)
  let mask0 := subsetMask.map ndNot
  let (values, mask) ←
    if 1 < d.ndim ∧ st.isSome then
      match metaNat d.meta "spectral_axis_index" with
      | some k =>
        Except.ok (computeStatistic (st.getD .mean) comp.values k subsetMask,
          mask0.map (fun m => npAllKeep m k))
      | none => Except.error (.keyError "spectral_axis_index")
    else
      Except.ok (comp.values, mask0)
  let label2 := if l = "flux" ∨ l = "uncertainty" then l else "flux"
  if label2 = "uncertainty" then
    let kstr ← match dictGet d.meta "uncertainty_type" with
      | none => Except.ok "std"
      | some (.str s) => Except.ok s
      | some _ => Except.error (.keyError "uncertainty_type")
    match UNCERT_REF kstr with
    | some kind => Except.ok { dk with uncertainty := some (kind, values, comp.units),
                                       mask := mask }
    | none => Except.error (.keyError kstr)
  else
    Except.ok { dk with flux := some (values, comp.units), mask := mask }

/-- `parse_attributes` over the selected attribute list (line 325-326
wraps a single attribute into a list). -/
def parseAttributes (d : GlueData) (subsetMask : Option (NDArray Bool))
    (st : Option Stat) (attrs : List String) : Except PyErr DataKwargs :=
  attrs.foldlM (parseOne d subsetMask st) {}

/-- A glue `Data` or a `Subset` of one; a subset contributes its subset
state, modelled by the boolean mask `get_mask` computes from it. -/
inductive DataOrSubset
  | data (d : GlueData)
  | subset (d : GlueData) (mask : NDArray Bool)

/-- The owning container. -/
def DataOrSubset.dataOf : DataOrSubset → GlueData
  | .data d => d
  | .subset d _ => d

/-- The effective statistic after step 2 of `to_object` (lines 209-210):
forced to none for data with fewer than two dimensions. -/
def effStat (d : GlueData) (st : Option Stat) : Option Stat :=
  if d.ndim < 2 then none else st

/-- The `Spectrum1D` that `to_object` assembles, plus the warnings the
call emitted. -/
structure ToObjectResult where
  spec : SpectralSpec
  flux : Option (NDArray ℚ × String)
  uncertainty : Option (UncertKind × NDArray ℚ × String)
  mask : Option (NDArray Bool)
  meta : PyDict
  warnings : List String

/-- `SpecutilsHandler.to_object` (lines 188-328): split off the subset
state, disable the statistic for 1-D data, derive the spectral-axis
specification, copy the metadata, resolve the attribute selector, parse
the selected attributes, and assemble the spectrum. -/
def to_object (dos : DataOrSubset) (attrSel : Option AttrArg)
    (statistic : Option Stat) : Except PyErr ToObjectResult := do
  let d := dos.dataOf
  let subsetMask := match dos with
    | .data _ => none
    | .subset _ m => some m
  let st := effStat d statistic
  let (spec, warns) ← coordsStep d st
  let attrs ← resolveAttribute d attrSel
  let dk ← parseAttributes d subsetMask st attrs
  .ok { spec := spec, flux := dk.flux, uncertainty := dk.uncertainty,
        mask := dk.mask, meta := d.meta, warnings := warns }

theorem dictGet_cons (p : String × MetaVal) (t : PyDict) (k : String) :
    dictGet (p :: t) k = if p.1 = k then some p.2 else dictGet t k := by
  by_cases h : p.1 = k <;> simp [dictGet, List.find?_cons, h]

theorem dictGet_eq_none_of_not_mem (d : PyDict) (k : String)
    (h : k ∉ d.map Prod.fst) : dictGet d k = none := by
  induction d with
  | nil => rfl
  | cons p t ih =>
    simp only [List.map_cons, List.mem_cons] at h
    push_neg at h
    rw [dictGet_cons, if_neg (fun hc => h.1 hc.symm), ih h.2]

theorem dictGet_dictInsert_same (d : PyDict) (k : String) (v : MetaVal) :
    dictGet (dictInsert d k v) k = some v := by
  induction d with
  | nil => simp [dictInsert, dictGet]
  | cons p t ih =>
    by_cases hpk : p.1 = k
    · simp [dictInsert, dictGet, List.any_cons, hpk]
    · by_cases ht : t.any (fun q => decide (q.1 = k)) = true
      · have h1 : dictInsert (p :: t) k v =
            p :: t.map (fun q => if q.1 = k then (k, v) else q) := by
          simp [dictInsert, List.any_cons, hpk, ht]
        have h2 : dictInsert t k v = t.map (fun q => if q.1 = k then (k, v) else q) := by
          simp [dictInsert, ht]
        rw [h1, dictGet_cons, if_neg hpk, ← h2, ih]
      · have h1 : dictInsert (p :: t) k v = p :: (t ++ [(k, v)]) := by
          simp [dictInsert, List.any_cons, hpk, ht]
        have h2 : dictInsert t k v = t ++ [(k, v)] := by
          simp [dictInsert, ht]
        rw [h1, dictGet_cons, if_neg hpk, ← h2, ih]

theorem dictGet_map_overwrite (d : PyDict) {k k' : String} (v : MetaVal)
    (h : k' ≠ k) :
    dictGet (d.map (fun q => if q.1 = k then (k, v) else q)) k' = dictGet d k' := by
  induction d with
  | nil => rfl
  | cons p t ih =>
    by_cases hpk : p.1 = k
    · rw [List.map_cons, if_pos hpk, dictGet_cons, dictGet_cons]
      rw [if_neg (fun hc : (k, v).1 = k' => h hc.symm), if_neg (fun hc => h (hpk ▸ hc).symm), ih]
    · rw [List.map_cons, if_neg hpk, dictGet_cons, dictGet_cons, ih]

theorem dictGet_append_single (d : PyDict) {k k' : String} (v : MetaVal)
    (h : k' ≠ k) : dictGet (d ++ [(k, v)]) k' = dictGet d k' := by
  induction d with
  | nil =>
    rw [List.nil_append, dictGet_cons, if_neg (fun hc : k = k' => h hc.symm)]
  | cons p t ih =>
    rw [List.cons_append, dictGet_cons, dictGet_cons, ih]

theorem dictGet_dictInsert_other (d : PyDict) {k k' : String} (v : MetaVal)
    (h : k' ≠ k) : dictGet (dictInsert d k v) k' = dictGet d k' := by
  rw [dictInsert]
  by_cases ha : d.any (fun p => decide (p.1 = k)) = true
  · rw [if_pos ha, dictGet_map_overwrite _ _ h]
  · rw [if_neg ha, dictGet_append_single _ _ h]

theorem dictUpdate_cons (d : PyDict) (p : String × MetaVal) (t : PyDict) :
    dictUpdate d (p :: t) = dictUpdate (dictInsert d p.1 p.2) t := rfl

theorem dictGet_dictUpdate_of_none (d u : PyDict) (k : String)
    (h : dictGet u k = none) : dictGet (dictUpdate d u) k = dictGet d k := by
  induction u generalizing d with
  | nil => rfl
  | cons p t ih =>
    rw [dictGet_cons] at h
    by_cases hpk : p.1 = k
    · rw [if_pos hpk] at h; exact absurd h (by simp)
    · rw [if_neg hpk] at h
      rw [dictUpdate_cons, ih _ h, dictGet_dictInsert_other _ _ (fun hc => hpk hc.symm)]

theorem dictGet_dictUpdate_of_some (d u : PyDict) (k : String) (v : MetaVal)
    (hnd : (u.map Prod.fst).Nodup) (h : dictGet u k = some v) :
    dictGet (dictUpdate d u) k = some v := by
  induction u generalizing d with
  | nil => simp [dictGet] at h
  | cons p t ih =>
    rw [List.map_cons, List.nodup_cons] at hnd
    rw [dictGet_cons] at h
    by_cases hpk : p.1 = k
    · rw [if_pos hpk] at h
      have ht : dictGet t k = none :=
        dictGet_eq_none_of_not_mem t k (hpk ▸ hnd.1)
      rw [dictUpdate_cons, dictGet_dictUpdate_of_none _ _ _ ht, ← hpk,
        dictGet_dictInsert_same]
      exact h
    · rw [if_neg hpk] at h
      rw [dictUpdate_cons]
      exact ih _ hnd.2 h

/-- The identity 1-D spectral WCS, used by concrete examples. -/
def idWCS : SpectralWCS1D := ⟨fun x => x, fun x => x⟩

/-- A concrete spectrum whose own `meta` carries an `uncertainty_type`
key that disagrees with the attached uncertainty's kind. -/
def c1Spec : Spectrum1D :=
  { flux := ⟨[2], [1, 2]⟩
    unit := "Jy"
    uncertainty := some ⟨.std, ⟨[2], [1, 1]⟩, "Jy"⟩
    mask := none
    wcs := .spec1d idWCS
    spectral_axis_index := 0
    meta := [("uncertainty_type", .str "var")] }

/-- C1 counterexample: for `c1Spec`, step 3 of `to_data` records
`uncertainty_type = "std"` (the uncertainty's kind), but the final
metadata of the returned container holds `"var"`, the value from the
spectrum's own meta — the spectrum's meta does overwrite the key set in
step 3, contradicting the claim that the step-3 value is retained. -/
theorem c1_counterexample :
    dictGet (to_data c1Spec).meta "uncertainty_type" = some (.str "var") ∧
      dictGet (to_data c1Spec).meta "uncertainty_type" ≠
        some (.str (UncertKind.typeStr .std)) := by
  constructor
  · rfl
  · intro h
    simp [UncertKind.typeStr] at h
    exact absurd (show dictGet (to_data c1Spec).meta "uncertainty_type" =
      some (.str "var") from rfl) (by rw [h]; simp)

/-- C1 (amended): in `to_data` the spectrum's own meta is applied last and
wins on duplicate keys: for any key present in the spectrum's meta
mapping — including the `uncertainty_type` key set in step 3 — the
returned container's metadata holds the value from the spectrum's meta. -/
theorem c1_meta_spectrum_wins (obj : Spectrum1D) (k : String) (v : MetaVal)
    (hnd : (obj.meta.map Prod.fst).Nodup) (h : dictGet obj.meta k = some v) :
    dictGet (to_data obj).meta k = some v :=
  dictGet_dictUpdate_of_some _ obj.meta k v hnd h

/-- Witness for `c1_meta_spectrum_wins` at the concrete spectrum
`c1Spec`. -/
theorem c1_witness : dictGet (to_data c1Spec).meta "uncertainty_type" =
    some (.str "var") :=
  c1_meta_spectrum_wins c1Spec "uncertainty_type" (.str "var")
    (by decide) (by decide)

/-- The boolean identity matrix of size `n`, as the claim states it. -/
def boolIdentity (n : Nat) : List (List Bool) :=
  (List.range n).map (fun i => (List.range n).map (fun j => decide (i = j)))

/-- C3: `PaddedSpectrumWCS.pixel_to_world_values` transforms only the
first pixel array, by invoking the wrapped 1-D system on a flattened copy
and reshaping back so the output shape (and element count) equals the
input's, while every other positional array passes through unchanged;
`world_to_pixel_values` obeys the symmetric rule; and
`axis_correlation_matrix` equals the boolean identity matrix of the
target dimensionality. -/
theorem c3_padded_wcs (w : SpectralWCS1D) (a : NDArray ℚ)
    (rest : List (NDArray ℚ)) (n : Nat) :
    ((PaddedSpectrumWCS.pixel_to_world_values w (a :: rest)).headD ⟨[], []⟩).shape
        = a.shape
    ∧ ((PaddedSpectrumWCS.pixel_to_world_values w (a :: rest)).headD ⟨[], []⟩).data
        = spec1dP2WFlat w a.ravel
    ∧ ((PaddedSpectrumWCS.pixel_to_world_values w (a :: rest)).headD ⟨[], []⟩).data.length
        = a.data.length
    ∧ (PaddedSpectrumWCS.pixel_to_world_values w (a :: rest)).tail = rest
    ∧ ((PaddedSpectrumWCS.world_to_pixel_values w (a :: rest)).headD ⟨[], []⟩).shape
        = a.shape
    ∧ ((PaddedSpectrumWCS.world_to_pixel_values w (a :: rest)).headD ⟨[], []⟩).data
        = spec1dW2PFlat w a.ravel
    ∧ ((PaddedSpectrumWCS.world_to_pixel_values w (a :: rest)).headD ⟨[], []⟩).data.length
        = a.data.length
    ∧ (PaddedSpectrumWCS.world_to_pixel_values w (a :: rest)).tail = rest
    ∧ PaddedSpectrumWCS.axis_correlation_matrix n = boolIdentity n := by
  have hm : PaddedSpectrumWCS.axis_correlation_matrix n = boolIdentity n := by
    have hfun : ∀ i j : Nat,
        decide ((if i = j then (1 : ℚ) else 0) ≠ 0) = decide (i = j) := by
      intro i j
      by_cases h : i = j <;> simp [h]
    simp [PaddedSpectrumWCS.axis_correlation_matrix, matAstypeBool, npIdentity,
      boolIdentity, List.map_map, Function.comp, hfun]
  refine ⟨rfl, rfl, ?_, rfl, rfl, rfl, ?_, rfl, hm⟩
  · simp [PaddedSpectrumWCS.pixel_to_world_values, reshape, spec1dP2WFlat,
      NDArray.ravel]
  · simp [PaddedSpectrumWCS.world_to_pixel_values, reshape, spec1dW2PFlat,
      NDArray.ravel]

/-- One of the four pixel-space corners of the homogeneity test, as the
claim states it: the spectral coordinate is its extent minus one when
`specMax`, else zero, and all other coordinates are their extent minus
one when `othersMax`, else zero (array axis order). -/
def cornerPoint (shape : List Nat) (specIdx : Nat) (specMax othersMax : Bool) :
    List ℚ :=
  (List.range shape.length).map (fun i =>
    if i = specIdx then (if specMax then (shape.getD i 0 : ℚ) - 1 else 0)
    else (if othersMax then (shape.getD i 0 : ℚ) - 1 else 0))

/-- The spectral coordinate the generalized WCS yields at a corner (the
pixel point is reversed into WCS axis order before evaluation). -/
def cornerSpectral (g : GWCSModel) (shape : List Nat) (specIdx : Nat)
    (specMax othersMax : Bool) : ℚ :=
  g.spectralWorld ((cornerPoint shape specIdx specMax othersMax).reverse)

/-- C4: for a container with a generalized WCS whose metadata records a
spectral-axis index, the homogeneity test samples the coordinate system
at exactly the four pixel-space corners (spectral=0, others=0),
(spectral=0, others=max), (spectral=max, others=0),
(spectral=max, others=max) — max being extent minus one — and declares
the spectral solution homogeneous iff the spectral coordinate is
numerically close between the two spectral=0 corners and close between
the two spectral=max corners. -/
theorem c4_homogeneity (d : GlueData) (g : GWCSModel) (k : Nat)
    (hc : d.coords = Coords.gwcs g)
    (hk : metaNat d.meta "spectral_axis_index" = some k) :
    hasHomogenousCore g d.shape k = true ↔
      (npIsClose (cornerSpectral g d.shape k false false)
          (cornerSpectral g d.shape k false true) = true
        ∧ npIsClose (cornerSpectral g d.shape k true false)
          (cornerSpectral g d.shape k true true) = true) := by
  have key : ∀ (sm om : Bool) (j : Nat),
      (∀ x : ℚ, ([0, 0, x, x] : List ℚ).getD j 0 = if sm then x else 0) →
      (∀ x : ℚ, ([0, x, 0, x] : List ℚ).getD j 0 = if om then x else 0) →
      (((List.range d.shape.length).map (fun i =>
          if i = k then
            [0, 0, (d.shape.getD i 0 : ℚ) - 1, (d.shape.getD i 0 : ℚ) - 1]
          else
            [0, (d.shape.getD i 0 : ℚ) - 1, 0, (d.shape.getD i 0 : ℚ) - 1])).reverse).map
        (fun col => col.getD j 0) = (cornerPoint d.shape k sm om).reverse := by
    intro sm om j h1 h2
    rw [List.map_reverse]
    congr 1
    rw [List.map_map]
    have hfun : ((fun col : List ℚ => col.getD j 0) ∘ (fun i =>
        if i = k then
          [0, 0, (d.shape.getD i 0 : ℚ) - 1, (d.shape.getD i 0 : ℚ) - 1]
        else
          [0, (d.shape.getD i 0 : ℚ) - 1, 0, (d.shape.getD i 0 : ℚ) - 1]))
        = (fun i =>
          if i = k then (if sm then (d.shape.getD i 0 : ℚ) - 1 else 0)
          else (if om then (d.shape.getD i 0 : ℚ) - 1 else 0)) := by
      funext i
      simp only [Function.comp_apply]
      by_cases hik : i = k
      · rw [if_pos hik, if_pos hik, h1]
      · rw [if_neg hik, if_neg hik, h2]
    rw [hfun]
    rfl
  simp only [hasHomogenousCore]
  rw [key false false 0 (fun x => rfl) (fun x => rfl),
    key false true 1 (fun x => rfl) (fun x => rfl),
    key true false 2 (fun x => rfl) (fun x => rfl),
    key true true 3 (fun x => rfl) (fun x => rfl),
    Bool.and_eq_true]
  exact Iff.rfl

/-- A generalized WCS whose spectral world output depends only on the
spectral pixel coordinate (array axis 0, hence the last WCS-order
argument). -/
def c4G : GWCSModel := ⟨3, fun pt => pt.getD 2 0⟩

/-- A concrete 3-D container holding `c4G`. -/
def c4Data : GlueData :=
  { coords := .gwcs c4G
    components := [⟨"flux", ⟨[4, 5, 6], List.replicate 120 1⟩, "Jy"⟩]
    meta := [("spectral_axis_index", .nat 0)]
    shape := [4, 5, 6] }

/-- Witness for `c4_homogeneity` at the concrete container `c4Data`. -/
theorem c4_witness : hasHomogenousCore c4G c4Data.shape 0 = true ↔
    (npIsClose (cornerSpectral c4G c4Data.shape 0 false false)
        (cornerSpectral c4G c4Data.shape 0 false true) = true
      ∧ npIsClose (cornerSpectral c4G c4Data.shape 0 true false)
        (cornerSpectral c4G c4Data.shape 0 true true) = true) :=
  c4_homogeneity c4Data c4G 0 rfl rfl

/-- The spectral-axis values a 1-D spectral WCS produces for `n` pixels:
the pixel-to-world transform evaluated along `range n`. -/
def spec1dAxisVals (w : SpectralWCS1D) (n : Nat) : List ℚ :=
  (List.range n).map (fun i => w.p2w (i : ℚ))

/-- The spectral-axis values determined by a spectral-axis specification
for a spectrum of `n` spectral pixels. -/
def SpectralSpec.axisVals : SpectralSpec → Nat → Option (List ℚ)
  | .wcsDirect (.spec1d w), n => some (spec1dAxisVals w n)
  | .wcsSpec1d w, n => some (spec1dAxisVals w n)
  | .wcsFitsSub w, n => some (spec1dAxisVals w n)
  | .spectralAxis sa, _ => some sa
  | _, _ => none

/-- The spectral-axis values of a spectrum with `n` spectral pixels, as
determined by its own WCS. -/
def Spectrum1D.spectralAxisVals (s : Spectrum1D) (n : Nat) : Option (List ℚ) :=
  match s.wcs with
  | .spec1d w => some (spec1dAxisVals w n)
  | .spectralCoordinates sa => some sa
  | _ => none

theorem to_object_spec1d_single_flux (w : SpectralWCS1D) (vals : NDArray ℚ)
    (un : String) (meta : PyDict) (n : Nat) (st : Option Stat) :
    to_object (.data ⟨.spec1d w, [⟨"flux", vals, un⟩], meta, [n]⟩) none st
      = .ok ⟨.wcsDirect (.spec1d w), some (vals, un), none, none, meta, []⟩ := rfl

theorem parseOne_spec1d_uncertainty (w : SpectralWCS1D) (fv : NDArray ℚ)
    (fu : String) (uv : NDArray ℚ) (uu : String) (meta : PyDict) (n : Nat)
    (ks : String) (kind : UncertKind) (dk : DataKwargs)
    (hks : dictGet meta "uncertainty_type" = some (.str ks))
    (hkind : UNCERT_REF ks = some kind) :
    parseOne ⟨.spec1d w, [⟨"flux", fv, fu⟩, ⟨"uncertainty", uv, uu⟩], meta, [n]⟩
      none none dk "uncertainty"
      = .ok { dk with uncertainty := some (kind, uv, uu), mask := none } := by
  unfold parseOne
  rw [show (⟨Coords.spec1d w, [⟨"flux", fv, fu⟩, ⟨"uncertainty", uv, uu⟩], meta,
    [n]⟩ : GlueData).meta = meta from rfl]
  rw [hks]
  simp [hkind, Except.instMonad, Except.bind]

theorem to_object_spec1d_flux_uncertainty (w : SpectralWCS1D) (fv : NDArray ℚ)
    (fu : String) (uv : NDArray ℚ) (uu : String) (meta : PyDict) (n : Nat)
    (st : Option Stat) (ks : String) (kind : UncertKind)
    (hks : dictGet meta "uncertainty_type" = some (.str ks))
    (hkind : UNCERT_REF ks = some kind) :
    to_object (.data ⟨.spec1d w, [⟨"flux", fv, fu⟩, ⟨"uncertainty", uv, uu⟩], meta, [n]⟩)
      none st
      = .ok ⟨.wcsDirect (.spec1d w), some (fv, fu), some (kind, uv, uu), none, meta, []⟩ := by
  have hpo := parseOne_spec1d_uncertainty w fv fu uv uu meta n ks kind
    ⟨some (fv, fu), none, none⟩ hks hkind
  have hpa : parseAttributes
      ⟨.spec1d w, [⟨"flux", fv, fu⟩, ⟨"uncertainty", uv, uu⟩], meta, [n]⟩
      none none ["flux", "uncertainty"]
      = .ok ⟨some (fv, fu), some (kind, uv, uu), none⟩ := by
    simp only [parseAttributes, List.foldlM]
    rw [show parseOne ⟨.spec1d w, [⟨"flux", fv, fu⟩, ⟨"uncertainty", uv, uu⟩], meta, [n]⟩
        none none {} "flux" = .ok ⟨some (fv, fu), none, none⟩ from rfl]
    simp only [Except.instMonad, Except.bind, hpo]
    rfl
  simp only [to_object, DataOrSubset.dataOf]
  rw [show effStat (⟨Coords.spec1d w, [⟨"flux", fv, fu⟩, ⟨"uncertainty", uv, uu⟩],
    meta, [n]⟩ : GlueData) st = none from rfl]
  rw [show coordsStep (⟨Coords.spec1d w, [⟨"flux", fv, fu⟩, ⟨"uncertainty", uv, uu⟩],
    meta, [n]⟩ : GlueData) none = .ok (.wcsDirect (.spec1d w), []) from rfl]
  rw [show resolveAttribute (⟨Coords.spec1d w, [⟨"flux", fv, fu⟩, ⟨"uncertainty", uv, uu⟩],
    meta, [n]⟩ : GlueData) none = .ok ["flux", "uncertainty"] from rfl]
  simp only [Except.instMonad, Except.bind, hpa]

theorem to_data_1d_no_uncertainty (s : Spectrum1D) (n : Nat) (w : SpectralWCS1D)
    (hf : s.flux.shape = [n]) (hm : s.mask = none) (hw : s.wcs = .spec1d w)
    (hu : s.uncertainty = none) :
    to_data s = ⟨.spec1d w, [⟨"flux", s.flux, s.unit⟩],
      dictUpdate (dictUpdate [] [("spectral_axis_index", .nat s.spectral_axis_index)]) s.meta,
      [n]⟩ := by
  simp [to_data, hw, hm, hu, NDArray.ndim, hf]

theorem to_data_1d_var_uncertainty (s : Spectrum1D) (n : Nat) (w : SpectralWCS1D)
    (uv : NDArray ℚ) (uu : String)
    (hf : s.flux.shape = [n]) (hm : s.mask = none) (hw : s.wcs = .spec1d w)
    (hu : s.uncertainty = some ⟨.var, uv, uu⟩) :
    to_data s = ⟨.spec1d w, [⟨"flux", s.flux, s.unit⟩, ⟨"uncertainty", uv, uu⟩],
      dictUpdate (dictUpdate [("uncertainty_type", .str "var")]
        [("spectral_axis_index", .nat s.spectral_axis_index)]) s.meta,
      [n]⟩ := by
  simp [to_data, hw, hm, hu, NDArray.ndim, hf, UncertKind.typeStr, dictUpdate, dictInsert]

/-- A concrete spectrum with a variance uncertainty whose own `meta`
carries a conflicting `uncertainty_type` entry. -/
def c2SpecCex : Spectrum1D :=
  { flux := ⟨[1], [5]⟩
    unit := "Jy"
    uncertainty := some ⟨.var, ⟨[1], [4]⟩, "Jy2"⟩
    mask := none
    wcs := .spec1d idWCS
    spectral_axis_index := 0
    meta := [("uncertainty_type", .str "std")] }

/-- C2 counterexample: for the 1-D spectrum `c2SpecCex` carrying an
uncertainty of kind `var` (and no mask), the round trip recovers an
uncertainty of kind `std`, not `var`: the spectrum's own
`uncertainty_type` meta entry overwrites the one `to_data` records, so
the claim's uncertainty-kind clause fails. -/
theorem c2_counterexample :
    to_object (.data (to_data c2SpecCex)) none (some .mean)
      = .ok ⟨.wcsDirect (.spec1d idWCS), some (⟨[1], [5]⟩, "Jy"),
          some (.std, ⟨[1], [4]⟩, "Jy2"), none, (to_data c2SpecCex).meta, []⟩
    ∧ UncertKind.std ≠ UncertKind.var :=
  ⟨rfl, by decide⟩

/-- C2 (amended): for a spectrum with 1-D flux, no mask and a 1-D
spectral WCS, `to_object (to_data s)` with any requested statistic
reproduces the flux values, the flux unit and the spectral-axis values,
with no statistic collapse; and when the spectrum carries an uncertainty
of kind `var` — provided its own meta does not itself contain an
`uncertainty_type` key — the round trip recovers kind `var` with
matching values. -/
theorem c2_roundtrip_1d (s : Spectrum1D) (n : Nat) (w : SpectralWCS1D)
    (st : Option Stat)
    (hf : s.flux.shape = [n]) (hm : s.mask = none) (hw : s.wcs = .spec1d w) :
    (s.uncertainty = none →
      to_object (.data (to_data s)) none st
        = .ok ⟨.wcsDirect (.spec1d w), some (s.flux, s.unit), none, none,
            (to_data s).meta, []⟩
      ∧ SpectralSpec.axisVals (.wcsDirect (.spec1d w)) n = s.spectralAxisVals n)
    ∧ (∀ uv uu, s.uncertainty = some ⟨.var, uv, uu⟩ →
        dictGet s.meta "uncertainty_type" = none →
        to_object (.data (to_data s)) none st
          = .ok ⟨.wcsDirect (.spec1d w), some (s.flux, s.unit),
              some (.var, uv, uu), none, (to_data s).meta, []⟩
        ∧ SpectralSpec.axisVals (.wcsDirect (.spec1d w)) n = s.spectralAxisVals n) := by
  constructor
  · intro hu
    have hd := to_data_1d_no_uncertainty s n w hf hm hw hu
    constructor
    · rw [hd]
      exact to_object_spec1d_single_flux w s.flux s.unit _ n st
    · simp [Spectrum1D.spectralAxisVals, hw, SpectralSpec.axisVals]
  · intro uv uu hu hmu
    have hd := to_data_1d_var_uncertainty s n w uv uu hf hm hw hu
    have hut : dictGet (dictUpdate (dictUpdate [("uncertainty_type", .str "var")]
        [("spectral_axis_index", .nat s.spectral_axis_index)]) s.meta)
        "uncertainty_type" = some (.str "var") := by
      rw [dictGet_dictUpdate_of_none _ _ _ hmu]
      rfl
    constructor
    · rw [hd]
      exact to_object_spec1d_flux_uncertainty w s.flux s.unit uv uu _ n st
        "var" .var hut rfl
    · simp [Spectrum1D.spectralAxisVals, hw, SpectralSpec.axisVals]

/-- A concrete 1-D spectrum with no uncertainty. -/
def c2SpecA : Spectrum1D :=
  { flux := ⟨[1], [5]⟩
    unit := "Jy"
    uncertainty := none
    mask := none
    wcs := .spec1d idWCS
    spectral_axis_index := 0
    meta := [("origin", .str "test")] }

/-- A concrete 1-D spectrum with a `var` uncertainty and a meta without
an `uncertainty_type` key. -/
def c2SpecB : Spectrum1D :=
  { flux := ⟨[1], [5]⟩
    unit := "Jy"
    uncertainty := some ⟨.var, ⟨[1], [4]⟩, "Jy2"⟩
    mask := none
    wcs := .spec1d idWCS
    spectral_axis_index := 0
    meta := [] }

/-- Witness for `c2_roundtrip_1d` at the concrete spectra `c2SpecA` and
`c2SpecB`. -/
theorem c2_witness :
    (to_object (.data (to_data c2SpecA)) none (some .mean)
      = .ok ⟨.wcsDirect (.spec1d idWCS), some (c2SpecA.flux, c2SpecA.unit), none, none,
          (to_data c2SpecA).meta, []⟩
      ∧ SpectralSpec.axisVals (.wcsDirect (.spec1d idWCS)) 1 = c2SpecA.spectralAxisVals 1)
    ∧ (to_object (.data (to_data c2SpecB)) none (some .sum)
      = .ok ⟨.wcsDirect (.spec1d idWCS), some (c2SpecB.flux, c2SpecB.unit),
          some (.var, ⟨[1], [4]⟩, "Jy2"), none, (to_data c2SpecB).meta, []⟩
      ∧ SpectralSpec.axisVals (.wcsDirect (.spec1d idWCS)) 1 = c2SpecB.spectralAxisVals 1) :=
  ⟨(c2_roundtrip_1d c2SpecA 1 idWCS (some .mean) rfl rfl rfl).1 rfl,
   (c2_roundtrip_1d c2SpecB 1 idWCS (some .sum) rfl rfl rfl).2 ⟨[1], [4]⟩ "Jy2" rfl rfl⟩

theorem to_object_err_of_coordsStep (dos : DataOrSubset) (attrSel : Option AttrArg)
    (st0 : Option Stat) (e : PyErr)
    (h : coordsStep dos.dataOf (effStat dos.dataOf st0) = .error e) :
    to_object dos attrSel st0 = .error e := by
  simp only [to_object]
  rw [h]
  rfl

/-- C9: with a statistic in effect on a container of two or more
dimensions, `to_object` reads `spectral_axis_index` from the container's
metadata before branching on the coordinate-system type; when the key is
absent the call fails with the unguarded key-lookup error, whatever the
coordinate system is. -/
theorem c9_missing_spectral_axis_index (dos : DataOrSubset)
    (attrSel : Option AttrArg) (stt : Stat)
    (h2 : 2 ≤ dos.dataOf.ndim)
    (hm : metaNat dos.dataOf.meta "spectral_axis_index" = none) :
    to_object dos attrSel (some stt) = .error (.keyError "spectral_axis_index") := by
  have hst : effStat dos.dataOf (some stt) = some stt := by
    unfold effStat
    rw [if_neg (by omega)]
  have hcs : coordsStep dos.dataOf (some stt)
      = .error (.keyError "spectral_axis_index") := by
    unfold coordsStep
    rw [if_neg (by simp), if_pos (by simp), hm]
  exact to_object_err_of_coordsStep dos attrSel (some stt) _ (by rw [hst]; exact hcs)

/-- A concrete 2-D container with a padded WCS and no
`spectral_axis_index` metadata entry. -/
def c9Data : GlueData :=
  { coords := .padded idWCS 2 0
    components := [⟨"flux", ⟨[2, 3], [1, 2, 3, 4, 5, 6]⟩, "Jy"⟩]
    meta := []
    shape := [2, 3] }

/-- Witness for `c9_missing_spectral_axis_index` at `c9Data`. -/
theorem c9_witness :
    to_object (.data c9Data) none (some .mean)
      = .error (.keyError "spectral_axis_index") :=
  c9_missing_spectral_axis_index (.data c9Data) none .mean (by decide) rfl

/-- C8: `to_object` raises a hard error (returning no spectrum) whenever
a statistic is in effect and the coordinate system is neither a Padding
Adapter, a FITS WCS, nor a generalized WCS; and whenever no statistic is
in effect and the coordinate system is neither a high-level WCS nor a
bare spectral-coordinate type. -/
theorem c8_unsupported_coords (d : GlueData) (attrSel : Option AttrArg)
    (st0 : Option Stat) :
    (effStat d st0 ≠ none → d.coords.isPadded = false → d.coords.isFits = false →
      d.coords.isGwcs = false →
      ∃ e, to_object (.data d) attrSel st0 = .error e)
    ∧ (effStat d st0 = none → d.coords.isBaseHighLevelWCS = false →
      d.coords.isSpectralCoordinates = false →
      ∃ e, to_object (.data d) attrSel st0 = .error e) := by
  constructor
  · intro hst hp hf hg
    rcases hstE : effStat d st0 with _ | stt
    · exact absurd hstE hst
    · have hcs : ∃ e, coordsStep d (some stt) = .error e := by
        unfold coordsStep
        rw [if_neg (by simp), if_pos (by simp)]
        rcases metaNat d.meta "spectral_axis_index" with _ | k
        · exact ⟨_, rfl⟩
        · rcases hdc : d.coords with w | ⟨w, nn, kk⟩ | w | g | sa | b
          · exact ⟨_, rfl⟩
          · rw [hdc] at hp
            exact absurd hp (by simp [Coords.isPadded])
          · rw [hdc] at hf
            exact absurd hf (by simp [Coords.isFits])
          · rw [hdc] at hg
            exact absurd hg (by simp [Coords.isGwcs])
          · exact ⟨_, rfl⟩
          · exact ⟨_, rfl⟩
      obtain ⟨e, he⟩ := hcs
      exact ⟨e, to_object_err_of_coordsStep (.data d) attrSel st0 e
        (by rw [DataOrSubset.dataOf, hstE]; exact he)⟩
  · intro hst hh hsc
    have hcs : ∃ e, coordsStep d none = .error e := by
      unfold coordsStep
      rw [if_neg (by rw [hh]; simp), if_neg (by simp)]
      rcases hdc : d.coords with w | ⟨w, nn, kk⟩ | w | g | sa | b
      · exact ⟨_, rfl⟩
      · exact ⟨_, rfl⟩
      · exact ⟨_, rfl⟩
      · exact ⟨_, rfl⟩
      · rw [hdc] at hsc
        exact absurd hsc (by simp [Coords.isSpectralCoordinates])
      · exact ⟨_, rfl⟩
    obtain ⟨e, he⟩ := hcs
    exact ⟨e, to_object_err_of_coordsStep (.data d) attrSel st0 e
      (by rw [DataOrSubset.dataOf, hst]; exact he)⟩

/-- A concrete 2-D container whose coordinates are an unrelated
non-WCS object. -/
def c8Data : GlueData :=
  { coords := .other false
    components := [⟨"flux", ⟨[2, 2], [1, 2, 3, 4]⟩, "Jy"⟩]
    meta := [("spectral_axis_index", .nat 0)]
    shape := [2, 2] }

/-- Witness for `c8_unsupported_coords` at `c8Data`, in both the
statistic and the no-statistic regime. -/
theorem c8_witness :
    (∃ e, to_object (.data c8Data) none (some .mean) = .error e)
    ∧ (∃ e, to_object (.data c8Data) none none = .error e) :=
  ⟨(c8_unsupported_coords c8Data none (some .mean)).1 (by decide) rfl rfl rfl,
   (c8_unsupported_coords c8Data none none).2 rfl rfl rfl⟩

/-- C5: on a multi-dimensional container with a generalized WCS and a
requested statistic, when the homogeneity test fails `to_object` emits
the collapsing-may-be-inaccurate warning, passes the full generalized
coordinate system through as the spectrum's WCS, and still collapses and
returns a spectrum — never a hard error. -/
theorem c5_nonhomogeneous_warns (d : GlueData) (g : GWCSModel) (stt : Stat)
    (attrSel : Option AttrArg) (attrs : List String) (dk : DataKwargs) (k : Nat)
    (hc : d.coords = .gwcs g)
    (h2 : 2 ≤ d.ndim)
    (hk : metaNat d.meta "spectral_axis_index" = some k)
    (hnh : hasHomogenousCore g d.shape k = false)
    (hres : resolveAttribute d attrSel = .ok attrs)
    (hparse : parseAttributes d none (some stt) attrs = .ok dk) :
    to_object (.data d) attrSel (some stt)
      = .ok ⟨.wcsDirect (.gwcs g), dk.flux, dk.uncertainty, dk.mask, d.meta,
          [homogWarnMsg]⟩ := by
  have hst : effStat d (some stt) = some stt := by
    unfold effStat
    rw [if_neg (by omega)]
  have hcs : coordsStep d (some stt)
      = .ok (.wcsDirect (.gwcs g), [homogWarnMsg]) := by
    unfold coordsStep
    rw [if_neg (by simp), if_pos (by simp), hk, hc]
    simp [hnh]
  simp only [to_object, DataOrSubset.dataOf]
  rw [hst, hcs]
  simp only [Except.instMonad, Except.bind]
  rw [hres]
  simp only [hparse]

/-- A generalized WCS whose spectral output varies with the spatial
pixel coordinate. -/
def c5G : GWCSModel := ⟨2, fun pt => pt.getD 0 0 + pt.getD 1 0⟩

/-- A concrete 2-D container holding `c5G`. -/
def c5Data : GlueData :=
  { coords := .gwcs c5G
    components := [⟨"flux", ⟨[2, 2], [1, 2, 3, 4]⟩, "Jy"⟩]
    meta := [("spectral_axis_index", .nat 0)]
    shape := [2, 2] }

/-- Witness for `c5_nonhomogeneous_warns` at `c5Data`. -/
theorem c5_witness :
    to_object (.data c5Data) none (some .mean)
      = .ok ⟨.wcsDirect (.gwcs c5G),
          some (computeStatistic .mean ⟨[2, 2], [1, 2, 3, 4]⟩ 0 none, "Jy"),
          none, none, c5Data.meta, [homogWarnMsg]⟩ :=
  c5_nonhomogeneous_warns c5Data c5G .mean none ["flux"]
    ⟨some (computeStatistic .mean ⟨[2, 2], [1, 2, 3, 4]⟩ 0 none, "Jy"), none, none⟩
    0 rfl (by decide) rfl
    (by norm_num [hasHomogenousCore, npIsClose, qabs, List.range_succ, c5G, c5Data]) rfl rfl

theorem coordsStep_ok_metaNat (d : GlueData) (stt : Stat)
    (sw : SpectralSpec × List String)
    (h : coordsStep d (some stt) = .ok sw) :
    ∃ k, metaNat d.meta "spectral_axis_index" = some k := by
  unfold coordsStep at h
  rw [if_neg (by simp), if_pos (by simp)] at h
  rcases hk : metaNat d.meta "spectral_axis_index" with _ | k
  · rw [hk] at h
    exact Except.noConfusion h
  · exact ⟨k, rfl⟩

theorem parseOne_nonflux_ok (d : GlueData) (st : Option Stat) (c : Component)
    (hfindc : d.components.find? (fun x => x.label = c.label) = some c)
    (hl1 : c.label ≠ "flux") (hl2 : c.label ≠ "uncertainty")
    (hk : st.isSome = true → ∃ k, metaNat d.meta "spectral_axis_index" = some k) :
    ∃ v, parseOne d none st {} c.label = .ok ⟨some (v, c.units), none, none⟩ := by
  unfold parseOne
  rw [hfindc]
  by_cases hcol : 1 < d.ndim ∧ st.isSome = true
  · obtain ⟨k, hk'⟩ := hk hcol.2
    refine ⟨computeStatistic (st.getD .mean) c.values k none, ?_⟩
    simp [Except.instMonad, Except.bind, hcol.1, hcol.2, hk', hl1, hl2]
  · refine ⟨c.values, ?_⟩
    simp [Except.instMonad, Except.bind, hcol, hl1, hl2]

/-- C7: with no attribute selector on a container holding two or more
components, none labelled `flux` or `uncertainty`, `to_object` raises the
explicit-selector error; the same call with an explicit selector succeeds
and treats the selected attribute as the flux of the resulting spectrum
(no uncertainty is populated). -/
theorem c7_ambiguous_attribute (d : GlueData) (st0 : Option Stat)
    (sw : SpectralSpec × List String) (l : String) (c : Component)
    (hc : coordsStep d (effStat d st0) = .ok sw)
    (hlen : 2 ≤ d.components.length)
    (hnames : ∀ x ∈ d.components, x.label ≠ "flux" ∧ x.label ≠ "uncertainty")
    (hfind : d.components.find? (fun x => x.label = l) = some c) :
    to_object (.data d) none st0 = .error (.valueError ambiguousMsg)
    ∧ ∃ r, to_object (.data d) (some (.byName l)) st0 = .ok r
        ∧ (∃ v, r.flux = some (v, c.units)) ∧ r.uncertainty = none := by
  have hcl : c.label = l := by
    have := List.find?_some hfind
    exact of_decide_eq_true this
  have hmem : c ∈ d.components := List.mem_of_find?_eq_some hfind
  obtain ⟨hl1, hl2⟩ := hnames c hmem
  have hany : (d.components.any
      (fun x => decide (x.label = "flux" ∨ x.label = "uncertainty"))) = false := by
    rw [List.any_eq_false]
    intro x hx
    simp [(hnames x hx).1, (hnames x hx).2]
  constructor
  · have hres1 : resolveAttribute d none = .error (.valueError ambiguousMsg) := by
      rcases hdc : d.components with _ | ⟨c1, _ | ⟨c2, rest⟩⟩
      · rw [hdc] at hlen
        simp at hlen
      · rw [hdc] at hlen
        simp at hlen
      · have hn : ∀ x ∈ c1 :: c2 :: rest, x.label ≠ "flux" ∧ x.label ≠ "uncertainty" := by
          rw [← hdc]
          exact hnames
        simp [resolveAttribute, hdc]
        exact ⟨hn c1 (by simp), hn c2 (by simp), fun x hx => hn x (by simp [hx])⟩
    simp only [to_object, DataOrSubset.dataOf]
    rw [hc]
    simp only [Except.instMonad, Except.bind]
    rw [hres1]
  · have hres2 : resolveAttribute d (some (.byName l)) = .ok [c.label] := by
      simp only [resolveAttribute, hfind]
    have hkm : (effStat d st0).isSome = true →
        ∃ k, metaNat d.meta "spectral_axis_index" = some k := by
      intro hs
      rcases hstE : effStat d st0 with _ | stt
      · rw [hstE] at hs
        exact Bool.noConfusion hs
      · rw [hstE] at hc
        exact coordsStep_ok_metaNat d stt sw hc
    obtain ⟨v, hpo⟩ := parseOne_nonflux_ok d (effStat d st0) c
      (by rw [hcl]; exact hfind) hl1 hl2 hkm
    refine ⟨⟨sw.1, some (v, c.units), none, none, d.meta, sw.2⟩, ?_, ⟨v, rfl⟩, rfl⟩
    simp only [to_object, DataOrSubset.dataOf]
    rw [hc]
    simp only [Except.instMonad, Except.bind]
    rw [hres2]
    simp only [parseAttributes, List.foldlM, hpo]
    rfl

/-- A concrete 1-D container with two components, neither labelled
`flux` nor `uncertainty`. -/
def c7Data : GlueData :=
  { coords := .spec1d idWCS
    components := [⟨"a", ⟨[2], [1, 2]⟩, "u1"⟩, ⟨"b", ⟨[2], [3, 4]⟩, "u2"⟩]
    meta := []
    shape := [2] }

/-- Witness for `c7_ambiguous_attribute` at `c7Data`. -/
theorem c7_witness :
    to_object (.data c7Data) none (some .mean) = .error (.valueError ambiguousMsg)
    ∧ ∃ r, to_object (.data c7Data) (some (.byName "b")) (some .mean) = .ok r
        ∧ (∃ v, r.flux = some (v, "u2")) ∧ r.uncertainty = none :=
  c7_ambiguous_attribute c7Data (some .mean) (.wcsDirect (.spec1d idWCS), []) "b"
    ⟨"b", ⟨[2], [3, 4]⟩, "u2"⟩ rfl (by decide) (by decide) rfl

theorem parseOne_err (d : GlueData) (sm : Option (NDArray Bool)) (st : Option Stat)
    (dk : DataKwargs) (l : String) (e : PyErr)
    (h : parseOne d sm st dk l = .error e) : ∃ s, e = .keyError s := by
  unfold parseOne at h
  rcases hf : d.components.find? (fun c => c.label = l) with _ | c <;> rw [hf] at h <;>
    simp only [Except.instMonad, Except.bind] at h
  · exact ⟨l, by injection h with h2; exact h2.symm⟩
  · repeat' split at h
    all_goals try simp only [Except.instMonad, Except.bind] at h
    all_goals simp at h
    all_goals first
      | exact ⟨_, h.symm⟩
      | exact ⟨_, h⟩

theorem foldlM_parseOne_err (d : GlueData) (sm : Option (NDArray Bool))
    (st : Option Stat) (attrs : List String) (dk0 : DataKwargs) (e : PyErr)
    (h : List.foldlM (parseOne d sm st) dk0 attrs = .error e) :
    ∃ s, e = .keyError s := by
  induction attrs generalizing dk0 with
  | nil => exact Except.noConfusion h
  | cons l ls ih =>
    rw [show List.foldlM (parseOne d sm st) dk0 (l :: ls)
        = parseOne d sm st dk0 l >>= (fun b => List.foldlM (parseOne d sm st) b ls)
      from rfl] at h
    rcases hp : parseOne d sm st dk0 l with e1 | dk1 <;> rw [hp] at h <;>
      simp only [Except.instMonad, Except.bind] at h
    · obtain ⟨s, hs⟩ := parseOne_err d sm st dk0 l e1 hp
      injection h with h2
      exact ⟨s, h2 ▸ hs⟩
    · exact ih dk1 h

theorem parseAttributes_err (d : GlueData) (sm : Option (NDArray Bool))
    (st : Option Stat) (attrs : List String) (e : PyErr)
    (h : parseAttributes d sm st attrs = .error e) : ∃ s, e = .keyError s :=
  foldlM_parseOne_err d sm st attrs {} e h

theorem resolveAttribute_err (d : GlueData) (a : Option AttrArg) (e : PyErr)
    (hcomp : d.components ≠ []) (h : resolveAttribute d a = .error e) :
    e ≠ .valueError noAttrMsg := by
  unfold resolveAttribute at h
  repeat' split at h
  all_goals first
    | exact Except.noConfusion h
    | exact absurd (List.length_eq_zero.mp (by assumption)) hcomp
    | (injection h with h2; rw [← h2]; simp [ambiguousMsg, noAttrMsg])

/-- C10: `to_object` raises the no-attributes error exactly when the
attribute argument is not a string and the container has zero
user-defined attributes; an explicit non-string identifier still hits the
check, while a string attribute skips it and proceeds to name
resolution (failing with a key error when the name resolves to
nothing). -/
theorem c10_no_attributes (d : GlueData) (st0 : Option Stat)
    (sw : SpectralSpec × List String)
    (hc : coordsStep d (effStat d st0) = .ok sw) :
    (d.components = [] →
      to_object (.data d) none st0 = .error (.valueError noAttrMsg)
      ∧ (∀ l, to_object (.data d) (some (.byComp l)) st0 = .error (.valueError noAttrMsg))
      ∧ (∀ s, to_object (.data d) (some (.byName s)) st0 = .error (.keyError s)))
    ∧ (d.components ≠ [] →
      ∀ a, to_object (.data d) a st0 ≠ .error (.valueError noAttrMsg)) := by
  constructor
  · intro hcomp
    have hres0 : resolveAttribute d none = .error (.valueError noAttrMsg) := by
      simp [resolveAttribute, hcomp]
    have hresc : ∀ l, resolveAttribute d (some (.byComp l))
        = .error (.valueError noAttrMsg) := by
      intro l
      simp [resolveAttribute, hcomp]
    have hresn : ∀ s, resolveAttribute d (some (.byName s)) = .error (.keyError s) := by
      intro s
      simp [resolveAttribute, hcomp]
    refine ⟨?_, fun l => ?_, fun s => ?_⟩
    · simp only [to_object, DataOrSubset.dataOf]
      rw [hc]
      simp only [Except.instMonad, Except.bind]
      rw [hres0]
    · simp only [to_object, DataOrSubset.dataOf]
      rw [hc]
      simp only [Except.instMonad, Except.bind]
      rw [hresc l]
    · simp only [to_object, DataOrSubset.dataOf]
      rw [hc]
      simp only [Except.instMonad, Except.bind]
      rw [hresn s]
  · intro hcomp a hbad
    simp only [to_object, DataOrSubset.dataOf] at hbad
    rw [hc] at hbad
    simp only [Except.instMonad, Except.bind] at hbad
    rcases hra : resolveAttribute d a with e1 | attrs <;> rw [hra] at hbad <;>
      simp only [Except.instMonad, Except.bind] at hbad
    · injection hbad with h2
      exact resolveAttribute_err d a e1 hcomp hra h2
    · rcases hpa : parseAttributes d none (effStat d st0) attrs with e2 | dk <;>
        rw [hpa] at hbad <;> simp only [Except.instMonad, Except.bind] at hbad
      · obtain ⟨s, hs⟩ := parseAttributes_err d none (effStat d st0) attrs e2 hpa
        injection hbad with h2
        rw [hs] at h2
        exact PyErr.noConfusion h2
      · exact Except.noConfusion hbad

/-- A concrete container with zero user-defined attributes. -/
def c10DataEmpty : GlueData :=
  { coords := .spec1d idWCS, components := [], meta := [], shape := [3] }

/-- A concrete container with one user-defined attribute. -/
def c10DataOne : GlueData :=
  { coords := .spec1d idWCS
    components := [⟨"flux", ⟨[3], [1, 2, 3]⟩, "Jy"⟩]
    meta := []
    shape := [3] }

/-- Witness for `c10_no_attributes` at `c10DataEmpty` and `c10DataOne`. -/
theorem c10_witness :
    (to_object (.data c10DataEmpty) none none = .error (.valueError noAttrMsg)
      ∧ to_object (.data c10DataEmpty) (some (.byComp "x")) none
          = .error (.valueError noAttrMsg)
      ∧ to_object (.data c10DataEmpty) (some (.byName "x")) none
          = .error (.keyError "x"))
    ∧ to_object (.data c10DataOne) none none ≠ .error (.valueError noAttrMsg) := by
  refine ⟨?_, ?_⟩
  · obtain ⟨h1, h2, h3⟩ :=
      (c10_no_attributes c10DataEmpty none (.wcsDirect (.spec1d idWCS), []) rfl).1 rfl
    exact ⟨h1, h2 "x", h3 "x"⟩
  · exact (c10_no_attributes c10DataOne none (.wcsDirect (.spec1d idWCS), []) rfl).2
      (by simp [c10DataOne]) none

/-- The collapsed validity mask as the claim states it: element `k` is
true iff every element whose spectral coordinate is `k` is true across
all complement axes. -/
def maskAllComplement (m : NDArray Bool) (specIdx : Nat) : NDArray Bool :=
  ⟨[m.shape.getD specIdx 0], (List.range (m.shape.getD specIdx 0)).map (fun k =>
    decide (∀ idx ∈ allIndices m.shape, idx.getD specIdx 0 = k → m.get idx = true))⟩

theorem npAllKeep_eq_all (m : NDArray Bool) (i : Nat) :
    npAllKeep m i = maskAllComplement m i := by
  unfold npAllKeep maskAllComplement
  refine congrArg₂ NDArray.mk rfl ?_
  refine List.map_congr_left (fun k _ => ?_)
  rw [Bool.eq_iff_iff]
  simp only [List.all_eq_true, decide_eq_true_eq]
  constructor
  · intro hA idx hmem heq
    have := hA idx hmem
    rwa [if_pos heq] at this
  · intro hA idx hmem
    by_cases heq : idx.getD i 0 = k
    · rw [if_pos heq]
      exact hA idx hmem heq
    · rw [if_neg heq]

theorem parseOne_ok_mask (d : GlueData) (sm : Option (NDArray Bool))
    (st : Option Stat) (dk dk' : DataKwargs) (l : String)
    (h : parseOne d sm st dk l = .ok dk') :
    dk'.mask = if 1 < d.ndim ∧ st.isSome = true then
        (sm.map ndNot).map
          (fun m => npAllKeep m ((metaNat d.meta "spectral_axis_index").getD 0))
      else sm.map ndNot := by
  unfold parseOne at h
  rcases hf : d.components.find? (fun c => c.label = l) with _ | c <;> rw [hf] at h <;>
    simp only [Except.instMonad, Except.bind] at h
  · exact Except.noConfusion h
  · repeat' split at h
    all_goals try simp only [Except.instMonad, Except.bind] at h
    all_goals first
      | exact Except.noConfusion h
      | (injection h with h2; subst h2; simp [*])

theorem foldlM_parseOne_ok_mask (d : GlueData) (sm : Option (NDArray Bool))
    (st : Option Stat) (attrs : List String) (dk0 dk' : DataKwargs)
    (hne : attrs ≠ [])
    (h : List.foldlM (parseOne d sm st) dk0 attrs = .ok dk') :
    dk'.mask = if 1 < d.ndim ∧ st.isSome = true then
        (sm.map ndNot).map
          (fun m => npAllKeep m ((metaNat d.meta "spectral_axis_index").getD 0))
      else sm.map ndNot := by
  induction attrs generalizing dk0 with
  | nil => exact absurd rfl hne
  | cons l ls ih =>
    rw [show List.foldlM (parseOne d sm st) dk0 (l :: ls)
        = parseOne d sm st dk0 l >>= (fun b => List.foldlM (parseOne d sm st) b ls)
      from rfl] at h
    rcases hp : parseOne d sm st dk0 l with e1 | dk1 <;> rw [hp] at h <;>
      simp only [Except.instMonad, Except.bind] at h
    · exact Except.noConfusion h
    · rcases ls with _ | ⟨l2, ls2⟩
      · have h2 := Except.ok.inj (show Except.ok dk1 = .ok dk' from h)
        rw [← h2]
        exact parseOne_ok_mask d sm st dk0 dk1 l hp
      · exact ih dk1 (by simp) h

theorem resolveAttribute_ok_ne_nil (d : GlueData) (a : Option AttrArg)
    (attrs : List String) (h : resolveAttribute d a = .ok attrs) : attrs ≠ [] := by
  unfold resolveAttribute at h
  repeat' split at h
  all_goals first
    | exact Except.noConfusion h
    | (injection h with h2; rw [← h2]; simp; done)
    | (injection h with h2
       rw [← h2]
       have hany := List.any_eq_true.mp (by assumption)
       obtain ⟨x, hx, hor⟩ := hany
       rw [decide_eq_true_eq] at hor
       rcases hor with h1 | h1
       · have hflx : d.components.any (fun c => decide (c.label = "flux")) = true :=
           List.any_eq_true.mpr ⟨x, hx, by simp [h1]⟩
         simp [List.filter, hflx]
       · have hunc : d.components.any (fun c => decide (c.label = "uncertainty")) = true :=
           List.any_eq_true.mpr ⟨x, hx, by simp [h1]⟩
         cases hpf : d.components.any (fun c => decide (c.label = "flux")) <;>
           simp [List.filter, hpf, hunc])

/-- C6: for every subset passed to `to_object`, the validity mask of the
resulting spectrum is the logical inversion of the container's subset
mask; and when a statistic collapses multi-dimensional data, the mask is
reduced by logical AND across all non-spectral axes — an element of the
collapsed mask is true iff every element along the complement axes was
true — rather than by the numeric statistic. -/
theorem c6_mask_semantics (d : GlueData) (msk : NDArray Bool)
    (attrSel : Option AttrArg) (st0 : Option Stat) (r : ToObjectResult)
    (h : to_object (.subset d msk) attrSel st0 = .ok r) :
    (effStat d st0 = none → r.mask = some (ndNot msk))
    ∧ (∀ stt k, effStat d st0 = some stt →
        metaNat d.meta "spectral_axis_index" = some k →
        r.mask = some (npAllKeep (ndNot msk) k)
        ∧ npAllKeep (ndNot msk) k = maskAllComplement (ndNot msk) k) := by
  simp only [to_object, DataOrSubset.dataOf] at h
  rcases hcs : coordsStep d (effStat d st0) with e | sw <;> rw [hcs] at h <;>
    simp only [Except.instMonad, Except.bind] at h
  · exact Except.noConfusion h
  rcases hra : resolveAttribute d attrSel with e | attrs <;> rw [hra] at h <;>
    simp only [Except.instMonad, Except.bind] at h
  · exact Except.noConfusion h
  rcases hpa : parseAttributes d (some msk) (effStat d st0) attrs with e | dk <;>
    rw [hpa] at h <;> simp only [Except.instMonad, Except.bind] at h
  · exact Except.noConfusion h
  have hr : r.mask = dk.mask := by
    injection h with h2
    rw [← h2]
  have hmask := foldlM_parseOne_ok_mask d (some msk) (effStat d st0) attrs {} dk
    (resolveAttribute_ok_ne_nil d attrSel attrs hra) hpa
  constructor
  · intro h0
    rw [hr, hmask, if_neg (by rw [h0]; simp)]
    rfl
  · intro stt k hs hk
    have hdim : 1 < d.ndim := by
      by_contra hnd
      have hlt : d.ndim < 2 := by omega
      unfold effStat at hs
      rw [if_pos hlt] at hs
      exact Option.noConfusion hs
    refine ⟨?_, npAllKeep_eq_all _ _⟩
    rw [hr, hmask, if_pos ⟨hdim, by rw [hs]; rfl⟩, hk]
    rfl

/-- A concrete 2-D container with a padded WCS. -/
def c6Data : GlueData :=
  { coords := .padded idWCS 2 0
    components := [⟨"flux", ⟨[2, 2], [1, 2, 3, 4]⟩, "Jy"⟩]
    meta := [("spectral_axis_index", .nat 0)]
    shape := [2, 2] }

/-- A concrete subset mask over `c6Data`. -/
def c6Mask : NDArray Bool := ⟨[2, 2], [true, false, true, true]⟩

/-- The spectrum `to_object` assembles from the subset `(c6Data, c6Mask)`
with statistic `mean`. -/
def c6Result : ToObjectResult :=
  { spec := .wcsSpec1d idWCS
    flux := some (computeStatistic .mean ⟨[2, 2], [1, 2, 3, 4]⟩ 0 (some c6Mask), "Jy")
    uncertainty := none
    mask := some (npAllKeep (ndNot c6Mask) 0)
    meta := c6Data.meta
    warnings := [] }

/-- Witness for `c6_mask_semantics` at the concrete subset
`(c6Data, c6Mask)`. -/
theorem c6_witness :
    c6Result.mask = some (npAllKeep (ndNot c6Mask) 0)
    ∧ npAllKeep (ndNot c6Mask) 0 = maskAllComplement (ndNot c6Mask) 0 :=
  (c6_mask_semantics c6Data c6Mask none (some .mean) c6Result rfl).2 .mean 0 rfl rfl
